import Mathlib

/-!
# Verification of the control-finance installment billing core

Shallow embedding of the installment billing / batch mutation core of the
control-finance repository (Angular + TypeScript).  The embedded functions are
translated from:

* `src/services/finance.service.ts` — `addTransaction` (the revision with the
  credit-card closing-day adjustment and the per-installment day clamp), and
  the revision that attaches `installmentCurrent` / `installmentTotal` /
  `effectiveMonth` / `effectiveYear` metadata to each payload;
* `src/app/services/finance.service.ts` — the latest `addTransaction`
  (payment method, paid flag, no closing-day adjustment);
* `src/app/pages/dashboard/dashboard.component.ts` — `filteredTransactions`,
  `totalIncome`, `totalExpense`, `balance`, and `executeBatchAction`
  (pay / delete flows).

Modelling conventions: JavaScript numbers holding currency amounts are
modelled as exact rationals (`ℚ`); JavaScript `Date` month/day normalisation
is modelled by `jsDate` over the proleptic Gregorian calendar; the
nondeterministic `crypto.randomUUID()` / manual UUID generator is modelled by
an explicit `freshGroupId` argument (one value per call, matching "generated
once per split call"); ambient wall-clock access available to the JS runtime
is modelled by an explicit `now` argument to the `*_at` wrapper, which the
translated code never reads (the source computation contains no `new Date()`
without arguments and no `Date.now()`).
-/

namespace ControlFinance

/-- Gregorian leap-year rule, as implemented by JavaScript `Date`. -/
def isLeap (y : Nat) : Bool :=
  y % 4 == 0 && (y % 100 != 0 || y % 400 == 0)

/-- Number of days of month `m` (0-based month index, `Date.getMonth`
convention) of year `y`. -/
def daysInMonth (y m : Nat) : Nat :=
  if m = 1 then (if isLeap y then 29 else 28)
  else if m = 3 ∨ m = 5 ∨ m = 8 ∨ m = 10 then 30
  else 31

/-- A calendar date as JavaScript exposes it: `getFullYear`, `getMonth`
(0-based), `getDate` (1-based). -/
structure YMD where
  year : Nat
  month : Nat
  day : Nat
deriving Repr, DecidableEq

theorem daysInMonth_pos (y m : Nat) : 0 < daysInMonth y m := by
  unfold daysInMonth
  split
  · split <;> norm_num
  · split <;> norm_num

/-- Day/month normalisation of the JavaScript `Date(year, month, day)`
constructor for `day ≥ 1`: months beyond 11 roll the year forward, days
beyond the month length roll into the following months. -/
def jsDateAux (y m d : Nat) : YMD :=
  let y' := y + m / 12
  let m' := m % 12
  if d ≤ daysInMonth y' m' then ⟨y', m', d⟩
  else jsDateAux y' (m' + 1) (d - daysInMonth y' m')
termination_by d
decreasing_by
  have h1 : 0 < daysInMonth (y + m / 12) (m % 12) := daysInMonth_pos _ _
  omega

/-- The JavaScript `Date(year, month, day)` constructor (nonnegative
arguments).  `day = 0` denotes the last day of the preceding month — the
"day 0 trick" the source uses to read off a month's length. -/
def jsDate (y m d : Nat) : YMD :=
  if d = 0 then
    let y' := y + m / 12
    let m' := m % 12
    if m' = 0 then ⟨y' - 1, 11, daysInMonth (y' - 1) 11⟩
    else ⟨y', m' - 1, daysInMonth y' (m' - 1)⟩
  else jsDateAux y m d

theorem jsDateAux_of_le {y m d : Nat}
    (h : d ≤ daysInMonth (y + m / 12) (m % 12)) :
    jsDateAux y m d = ⟨y + m / 12, m % 12, d⟩ := by
  rw [jsDateAux]
  simp [h]

theorem jsDate_of_le {y m d : Nat} (h0 : d ≠ 0)
    (h : d ≤ daysInMonth (y + m / 12) (m % 12)) :
    jsDate y m d = ⟨y + m / 12, m % 12, d⟩ := by
  rw [jsDate, if_neg h0, jsDateAux_of_le h]

/-- `new Date(y, m+1, 0).getDate()` is the length of the (normalised)
month `m` of year `y`. -/
theorem jsDate_day_zero (y m : Nat) :
    (jsDate y (m + 1) 0).day = daysInMonth (y + m / 12) (m % 12) := by
  rw [jsDate, if_pos rfl]
  by_cases h : (m + 1) % 12 = 0
  · have h1 : m % 12 = 11 := by omega
    have h2 : (m + 1) / 12 = m / 12 + 1 := by omega
    simp [h, h1, h2]
  · have h1 : (m + 1) % 12 - 1 = m % 12 := by omega
    have h2 : (m + 1) / 12 = m / 12 := by omega
    simp [h, h1, h2]

/-! ## Data model (`finance.service.ts`) -/

/-- Frontend transaction type enumeration `'income' | 'expense'`. -/
inductive TxKind where
  | income
  | expense
deriving Repr, DecidableEq

/-- `CreditCard` (fields consumed by the billing logic; display-only fields
`name` / `color` / owner reference omitted). -/
structure CreditCard where
  id : String
  closingDay : Nat
  dueDay : Nat
deriving Repr, DecidableEq

/-- `this.cards().find(c => c.id === cardId)`. -/
def findCard (cards : List CreditCard) (cardId : String) : Option CreditCard :=
  cards.find? (fun c => c.id == cardId)

/-- The `type === 'expense' && cardId` truthiness test guarding the
credit-card branch of `addTransaction` (an empty-string `cardId` is falsy in
JavaScript): the card reference actually attached to the transaction. -/
def attachedCardId (txType : TxKind) (cardId : Option String) : Option String :=
  match txType, cardId with
  | .expense, some cid => if cid = "" then none else some cid
  | _, _ => none

/-- The `startMonth` computation of `addTransaction`
(`src/services/finance.service.ts`): the purchase month, bumped by one when
an attached card exists in the card list and `day >= card.closingDay`. -/
def startMonthOf (cards : List CreditCard) (txType : TxKind)
    (cardId : Option String) (day month : Nat) : Nat :=
  match attachedCardId txType cardId with
  | some cid =>
    match findCard cards cid with
    | some card => if card.closingDay ≤ day then month + 1 else month
    | none => month
  | none => month

/-- `const totalInstallments = (type === 'expense' && cardId) ?
(installments > 0 ? installments : 1) : 1`. -/
def totalInstallmentsOf (txType : TxKind) (cardId : Option String)
    (installments : Int) : Nat :=
  match attachedCardId txType cardId with
  | some _ => if 0 < installments then installments.toNat else 1
  | none => 1

theorem totalInstallmentsOf_pos (txType : TxKind) (cardId : Option String)
    (installments : Int) : 0 < totalInstallmentsOf txType cardId installments := by
  unfold totalInstallmentsOf
  rcases attachedCardId txType cardId with _ | cid
  · norm_num
  · dsimp only
    split <;> omega

/-- Date of installment `i` (0-based): the last day of the target month is
read off with the day-0 trick, the anchor day is clamped to it, and the
clamped date is built with the normalising `Date` constructor. -/
def installmentDate (startYear startMonth day i : Nat) : YMD :=
  let lastDayOfMonth := (jsDate startYear (startMonth + i + 1) 0).day
  let finalDay := min day lastDayOfMonth
  jsDate startYear (startMonth + i) finalDay

/-- One HTTP payload produced by `addTransaction`
(`src/services/finance.service.ts`, closing-day revision).  `date` is the
structured content of the formatted `purchaseDate` string; `cardRef` is the
`creditCard` field (`{id: cardId}` or `null`). -/
structure PayloadA where
  description : String
  amount : ℚ
  txType : TxKind
  date : YMD
  categoryId : String
  ownerId : String
  cardRef : Option String
  groupId : Option String
deriving Repr, DecidableEq

/-- `addTransaction` of `src/services/finance.service.ts` (closing-day
revision): the list of per-installment payloads POSTed to the backend.
`year`/`month`/`day` are the three integers parsed from `dateStr`
(month already 0-based, as in `parseInt(mStr) - 1`); `freshGroupId` models
the one `crypto.randomUUID()` drawn per call. -/
def addTransactionA (cards : List CreditCard) (description : String)
    (amount : ℚ) (txType : TxKind) (year month day : Nat)
    (categoryId ownerId : String) (cardId : Option String)
    (installments : Int) (freshGroupId : String) : List PayloadA :=
  let startMonth := startMonthOf cards txType cardId day month
  let n := totalInstallmentsOf txType cardId installments
  let amountPerInstallment := amount / (n : ℚ)
  let groupId : Option String := if 1 < n then some freshGroupId else none
  (List.range n).map (fun i =>
    { description :=
        if 1 < n then
          description ++ " (" ++ toString (i + 1) ++ "/" ++ toString n ++ ")"
        else description
      amount := amountPerInstallment
      txType := txType
      date := installmentDate year startMonth day i
      categoryId := categoryId
      ownerId := ownerId
      cardRef := attachedCardId txType cardId
      groupId := groupId })

/-- `addTransactionA` run in an ambient environment that also offers the
wall clock (`now`): the JavaScript runtime always has `Date.now()` in scope,
but the translated computation never consults it. -/
def addTransactionA_at (now : YMD) (cards : List CreditCard)
    (description : String) (amount : ℚ) (txType : TxKind)
    (year month day : Nat) (categoryId ownerId : String)
    (cardId : Option String) (installments : Int)
    (freshGroupId : String) : List PayloadA :=
  addTransactionA cards description amount txType year month day
    categoryId ownerId cardId installments freshGroupId

/-! ## Helper lemmas -/

theorem head?_range_map {α : Type} (n : Nat) (f : Nat → α) (h : 0 < n) :
    ((List.range n).map f).head? = some (f 0) := by
  obtain ⟨k, rfl⟩ : ∃ k, n = k + 1 := ⟨n - 1, by omega⟩
  rw [List.range_succ_eq_map]
  simp

theorem sum_range_const (n : Nat) (c : ℚ) :
    ((List.range n).map fun _ => c).sum = n * c := by
  induction n with
  | zero => simp
  | succ k ih =>
    rw [List.range_succ, List.map_append, List.sum_append, ih]
    push_cast
    simp
    ring

/-- The clamped installment date, in closed form: the target month is the
start month plus `i`, normalised with year rollover, and the day is the
anchor day clamped to that month's length. -/
theorem installmentDate_eq (startYear startMonth day i : Nat) (hd : 1 ≤ day) :
    installmentDate startYear startMonth day i =
      ⟨startYear + (startMonth + i) / 12, (startMonth + i) % 12,
        min day (daysInMonth (startYear + (startMonth + i) / 12)
          ((startMonth + i) % 12))⟩ := by
  unfold installmentDate
  rw [jsDate_day_zero]
  have hpos := daysInMonth_pos (startYear + (startMonth + i) / 12)
    ((startMonth + i) % 12)
  have hmin : 1 ≤ min day (daysInMonth (startYear + (startMonth + i) / 12)
      ((startMonth + i) % 12)) := le_min hd hpos
  rw [jsDate_of_le (by omega) (min_le_right _ _)]

/-! ## Claim theorems: billing date resolution and installment splitting -/

/-- **C1.** For every purchase date (day `d`, month `m`, year `y`) and
attached credit card with closing day `c`, transaction creation assigns the
billing period of the first installment to the next month — with the year
incremented when the month index overflows past 11 — exactly when `d ≥ c`,
and to the purchase month otherwise; when no card is attached (income, or a
null card), the billing period equals the purchase period unchanged. -/
theorem billing_period_assignment
    (cards : List CreditCard) (description : String) (amount : ℚ)
    (txType : TxKind) (year month day : Nat) (categoryId ownerId : String)
    (cardId : Option String) (installments : Int) (g : String)
    (hm : month < 12) (hd : 1 ≤ day) :
    (∀ cid card, txType = .expense → cardId = some cid → cid ≠ "" →
      findCard cards cid = some card →
      ((addTransactionA cards description amount txType year month day
          categoryId ownerId cardId installments g).head?.map
        (fun p => (p.date.month, p.date.year))) =
      some (if card.closingDay ≤ day then
              (if month = 11 then (0, year + 1) else (month + 1, year))
            else (month, year)))
    ∧ ((txType = .income ∨ cardId = none) →
      ((addTransactionA cards description amount txType year month day
          categoryId ownerId cardId installments g).head?.map
        (fun p => (p.date.month, p.date.year))) = some (month, year)) := by
  constructor
  · rintro cid card htype rfl hne hfind
    subst htype
    rw [addTransactionA, head?_range_map _ _ (totalInstallmentsOf_pos _ _ _)]
    rw [installmentDate_eq _ _ _ _ hd]
    have hstart : startMonthOf cards .expense (some cid) day month =
        if card.closingDay ≤ day then month + 1 else month := by
      simp [startMonthOf, attachedCardId, hne, hfind]
    rw [hstart]
    by_cases hc : card.closingDay ≤ day
    · rw [if_pos hc, if_pos hc]
      by_cases h11 : month = 11
      · subst h11
        norm_num
      · have h1 : (month + 1 + 0) % 12 = month + 1 := by omega
        have h2 : (month + 1 + 0) / 12 = 0 := by omega
        simp [h1, h2, h11]
    · rw [if_neg hc, if_neg hc]
      have h1 : (month + 0) % 12 = month := by omega
      have h2 : (month + 0) / 12 = 0 := by omega
      simp [h1, h2]
      omega
  · intro hnone
    have hattach : attachedCardId txType cardId = none := by
      rcases hnone with h | h
      · subst h; rfl
      · subst h; cases txType <;> rfl
    rw [addTransactionA, head?_range_map _ _ (totalInstallmentsOf_pos _ _ _)]
    rw [installmentDate_eq _ _ _ _ hd]
    have hstart : startMonthOf cards txType cardId day month = month := by
      rw [startMonthOf, hattach]
    rw [hstart]
    have h1 : (month + 0) % 12 = month := by omega
    have h2 : (month + 0) / 12 = 0 := by omega
    simp [h1, h2]
    omega

theorem billing_period_assignment_witness :
    ((addTransactionA [⟨"card1", 5, 10⟩] "Compra" 300 .expense 2025 0 28
        "cat" "own" (some "card1") 3 "g").head?.map
      (fun p => (p.date.month, p.date.year))) = some (1, 2025) ∧
    ((addTransactionA [⟨"card1", 5, 10⟩] "Salario" 300 .income 2025 0 28
        "cat" "own" none 1 "g").head?.map
      (fun p => (p.date.month, p.date.year))) = some (0, 2025) := by
  constructor
  · have h := (billing_period_assignment [⟨"card1", 5, 10⟩] "Compra" 300
      .expense 2025 0 28 "cat" "own" (some "card1") 3 "g"
      (by norm_num) (by norm_num)).1 "card1" ⟨"card1", 5, 10⟩ rfl rfl
      (by decide) (by decide)
    simpa using h
  · exact (billing_period_assignment [⟨"card1", 5, 10⟩] "Salario" 300
      .income 2025 0 28 "cat" "own" none 1 "g"
      (by norm_num) (by norm_num)).2 (Or.inl rfl)

/-- **C3.** Splitting a total `amount` over the computed installment count
produces per-installment amounts (each `amount / n`, as the source's plain
division) whose sum is exactly the requested total — amounts are modelled as
exact rationals, so "within rounding tolerance" holds with zero error and
there is no remainder left for the last installment to absorb. -/
theorem installment_amounts_sum
    (cards : List CreditCard) (description : String) (amount : ℚ)
    (txType : TxKind) (year month day : Nat) (categoryId ownerId : String)
    (cardId : Option String) (installments : Int) (g : String) :
    ((addTransactionA cards description amount txType year month day
        categoryId ownerId cardId installments g).map
      (fun p => p.amount)).sum = amount := by
  rw [addTransactionA, List.map_map]
  have hpos := totalInstallmentsOf_pos txType cardId installments
  set n := totalInstallmentsOf txType cardId installments with hn
  have hne : (n : ℚ) ≠ 0 := Nat.cast_ne_zero.mpr (by omega)
  show ((List.range n).map fun _ => amount / (n : ℚ)).sum = amount
  rw [sum_range_const, mul_comm, div_mul_cancel₀ _ hne]

/-- **C5.** Every produced installment date has day component
`min(anchorDay, daysInMonth(targetYear, targetMonth))`, where the target
month is the start month plus the installment index `i` with year rollover;
hence the day never exceeds the length of the installment's target month.
The clamp is recomputed per installment (the formula depends on `i`). -/
theorem installment_day_clamped
    (cards : List CreditCard) (description : String) (amount : ℚ)
    (txType : TxKind) (year month day : Nat) (categoryId ownerId : String)
    (cardId : Option String) (installments : Int) (g : String)
    (hd : 1 ≤ day) :
    ∀ i p, (addTransactionA cards description amount txType year month day
        categoryId ownerId cardId installments g)[i]? = some p →
      p.date.year = year +
        ((startMonthOf cards txType cardId day month) + i) / 12 ∧
      p.date.month = ((startMonthOf cards txType cardId day month) + i) % 12 ∧
      p.date.day = min day (daysInMonth p.date.year p.date.month) ∧
      p.date.day ≤ daysInMonth p.date.year p.date.month := by
  intro i p hp
  rw [addTransactionA, List.getElem?_map] at hp
  have hi : i < totalInstallmentsOf txType cardId installments := by
    by_contra hi
    rw [List.getElem?_eq_none (by simp; omega)] at hp
    simp at hp
  rw [List.getElem?_range hi, Option.map_some'] at hp
  replace hp := Option.some_inj.mp hp
  subst hp
  dsimp only
  rw [installmentDate_eq _ _ _ _ hd]
  exact ⟨rfl, rfl, rfl, min_le_right _ _⟩

/-- Witness for C5: a R$300 purchase on 2025-01-31 on a card closing on
day 5 starts billing in February; the anchor day 31 is clamped to 28. -/
theorem installment_day_clamped_witness :
    ((addTransactionA [⟨"card1", 5, 10⟩] "TV" 300 .expense 2025 0 31
        "cat" "own" (some "card1") 2 "g")[0]?).map (fun p => p.date) =
      some ⟨2025, 1, 28⟩ := by
  cases hl : (addTransactionA [⟨"card1", 5, 10⟩] "TV" 300 .expense 2025 0 31
      "cat" "own" (some "card1") 2 "g")[0]? with
  | none => exact absurd hl (by decide)
  | some p =>
    obtain ⟨hy, hm2, hd2, _⟩ := installment_day_clamped [⟨"card1", 5, 10⟩]
      "TV" 300 .expense 2025 0 31 "cat" "own" (some "card1") 2 "g"
      (by norm_num) 0 p hl
    norm_num [startMonthOf, attachedCardId, findCard] at hy hm2
    rw [hy, hm2] at hd2
    norm_num [daysInMonth, isLeap] at hd2
    simp only [Option.map_some']
    congr 1
    cases hdp : p.date with
    | mk py pm pd =>
      rw [hdp] at hy hm2 hd2
      simp_all

/-- **C9.** The billing-period resolution and day-clamping logic of
transaction creation is a pure function of the purchase date, the card list
and the other creation arguments: runs at two different wall-clock instants
(`now₁`, `now₂`) produce identical payload lists — in particular identical
billing months, years and clamped days — so the result never depends on
"today". -/
theorem billing_resolution_clock_independent
    (now₁ now₂ : YMD) (cards : List CreditCard) (description : String)
    (amount : ℚ) (txType : TxKind) (year month day : Nat)
    (categoryId ownerId : String) (cardId : Option String)
    (installments : Int) (g : String) :
    addTransactionA_at now₁ cards description amount txType year month day
        categoryId ownerId cardId installments g =
      addTransactionA_at now₂ cards description amount txType year month day
        categoryId ownerId cardId installments g := rfl

/-! ## Dashboard component (`dashboard.component.ts`, latest revision) -/

/-- Backend transaction type enumeration `'INCOME' | 'EXPENSE'`. -/
inductive TxTypeU where
  | INCOME
  | EXPENSE
deriving Repr, DecidableEq

/-- `Category` reference entity. -/
structure Category where
  id : String
  name : String
  color : String
deriving Repr, DecidableEq

/-- `Owner` reference entity. -/
structure Owner where
  id : String
  name : String
deriving Repr, DecidableEq

/-- `Transaction` (`transaction.model.ts`, latest revision).  Date strings
are modelled by their parsed calendar content (`YMD`); denormalised display
fields default to the empty string when the backend omits them. -/
structure Tx where
  id : String
  description : String
  amount : ℚ
  txType : TxTypeU
  purchaseDate : YMD
  paid : Bool
  categoryId : String
  ownerId : String
  creditCardId : Option String
  groupId : Option String
  categoryName : String
  ownerName : String
  installmentCurrent : Nat
  installmentTotal : Nat
  effectiveMonth : Nat
  effectiveYear : Nat
deriving Repr, DecidableEq

/-- `String.prototype.toLowerCase`, restricted to the ASCII range. -/
def lowerChar (c : Char) : Char :=
  if 'A' ≤ c ∧ c ≤ 'Z' then Char.ofNat (c.toNat + 32) else c

/-- A string as its lower-cased character list. -/
def lowerChars (s : String) : List Char := s.data.map lowerChar

/-- `needle` occurs at the start of `hay`. -/
def isPrefixChk : List Char → List Char → Bool
  | [], _ => true
  | _ :: _, [] => false
  | a :: as, b :: bs => a == b && isPrefixChk as bs

/-- `hay.includes(needle)`: substring containment on character lists. -/
def includesChk : List Char → List Char → Bool
  | [], needle => needle.isEmpty
  | c :: rest, needle => isPrefixChk needle (c :: rest) || includesChk rest needle

/-- `String.prototype.trim` on character lists. -/
def trimChars (s : List Char) : List Char :=
  ((s.dropWhile Char.isWhitespace).reverse.dropWhile Char.isWhitespace).reverse

/-- JavaScript `a || b` on strings: `b` when `a` is empty (falsy). -/
def jsOr (a b : String) : String := if a = "" then b else a

/-- `getCategory(idOrName)`: single-pass lookup matching by id or by
display name (backend compatibility fallback). -/
def getCategory (cats : List Category) (idOrName : String) : Option Category :=
  cats.find? (fun c => c.id == idOrName || c.name == idOrName)

/-- `getCategoryName` of the dashboard: `"Outros"` for a missing id, the
looked-up name, or the raw argument as last fallback. -/
def getCategoryName (cats : List Category) (idOrName : String) : String :=
  if idOrName = "" then "Outros"
  else
    match getCategory cats idOrName with
    | some c => c.name
    | none => idOrName

/-- `getOwner(id)`. -/
def getOwner (owners : List Owner) (id : String) : Option Owner :=
  owners.find? (fun o => o.id == id)

/-- `getOwnerName` of the dashboard. -/
def getOwnerName (owners : List Owner) (id : String) : String :=
  if id = "" then "-"
  else
    match getOwner owners id with
    | some o => o.name
    | none => "-"

/-- `statusFilter` signal values `'all' | 'paid' | 'pending'`. -/
inductive StatusFilter where
  | all
  | paid
  | pending
deriving Repr, DecidableEq

/-- The dashboard filter context: the signals read by
`filteredTransactions` and the totals. -/
structure FilterCtx where
  selectedMonth : Nat
  selectedYear : Nat
  selectedDay : Option Nat
  selectedCardId : Option String
  selectedOwnerId : Option String
  statusFilter : StatusFilter
  searchQuery : String
  sortKey : String
  sortAsc : Bool
deriving Repr, DecidableEq

/-- The filter predicate of `filteredTransactions`: date-period match, day
match, card match, owner match, paid-status match, then free-text match
against description, category display name and owner display name
(case-insensitive substring), in source order. -/
def txMatches (ctx : FilterCtx) (cats : List Category) (owners : List Owner)
    (t : Tx) : Bool :=
  (t.effectiveMonth == ctx.selectedMonth &&
    t.effectiveYear == ctx.selectedYear) &&
  (match ctx.selectedDay with
   | some dayFilter => t.purchaseDate.day == dayFilter
   | none => true) &&
  (match ctx.selectedCardId with
   | some currentCardId => t.creditCardId == some currentCardId
   | none => true) &&
  (match ctx.selectedOwnerId with
   | some currentOwnerId => t.ownerId == currentOwnerId
   | none => true) &&
  (match ctx.statusFilter with
   | .paid => t.paid
   | .pending => !t.paid
   | .all => true) &&
  (let query := trimChars (lowerChars ctx.searchQuery)
   if query.isEmpty then true
   else
     includesChk (lowerChars t.description) query ||
     includesChk
       (lowerChars (jsOr t.categoryName (getCategoryName cats t.categoryId)))
       query ||
     includesChk
       (lowerChars (jsOr t.ownerName (getOwnerName owners t.ownerId)))
       query)

/-- Order-isomorphic model of `new Date(iso).getTime()` on parsed dates. -/
def dateRank (d : YMD) : ℚ := ((d.year * 12 + d.month) * 32 + d.day : Nat)

/-- Three-way character-list comparison. -/
def cmpChars : List Char → List Char → Int
  | [], [] => 0
  | [], _ :: _ => -1
  | _ :: _, [] => 1
  | a :: as, b :: bs =>
    if a.toNat < b.toNat then -1
    else if b.toNat < a.toNat then 1
    else cmpChars as bs

/-- ASCII model of `localeCompare(_, 'pt-BR', sensitivity: base)`:
case-insensitive lexicographic comparison. -/
def localeCmp (a b : String) : Int := cmpChars (lowerChars a) (lowerChars b)

/-- The sort comparator of `filteredTransactions`: locale-aware
case-insensitive comparison for the text keys `description` / `category`,
numeric or timestamp comparison for `amount` / date, direction applied as in
the source. -/
def sortComparator (ctx : FilterCtx) (cats : List Category) (a b : Tx) : Int :=
  if ctx.sortKey = "description" ∨ ctx.sortKey = "category" then
    let valA := if ctx.sortKey = "description" then a.description
      else String.mk (trimChars (getCategoryName cats a.categoryId).data)
    let valB := if ctx.sortKey = "description" then b.description
      else String.mk (trimChars (getCategoryName cats b.categoryId).data)
    let comparison := localeCmp valA valB
    if ctx.sortAsc then comparison else -comparison
  else
    let numA := if ctx.sortKey = "amount" then a.amount else dateRank a.purchaseDate
    let numB := if ctx.sortKey = "amount" then b.amount else dateRank b.purchaseDate
    if numA < numB then (if ctx.sortAsc then -1 else 1)
    else if numB < numA then (if ctx.sortAsc then 1 else -1)
    else 0

/-- Insert into a comparator-sorted list, after any element comparing equal
(preserving stability). -/
def insertSorted {α : Type} (cmp : α → α → Int) (x : α) : List α → List α
  | [] => [x]
  | y :: ys => if cmp x y < 0 then x :: y :: ys else y :: insertSorted cmp x ys

/-- Stable comparator sort modelling `Array.prototype.sort` (ECMAScript
requires a stable, comparator-consistent order; the algorithm itself is
unspecified — modelled here by stable insertion from the left). -/
def sortByCmp {α : Type} (cmp : α → α → Int) (l : List α) : List α :=
  l.foldl (fun acc x => insertSorted cmp x acc) []

/-- `filteredTransactions`: the loaded transaction set filtered by the
active context, then sorted by the active sort configuration. -/
def filteredTransactions (ctx : FilterCtx) (cats : List Category)
    (owners : List Owner) (txs : List Tx) : List Tx :=
  sortByCmp (sortComparator ctx cats) (txs.filter (txMatches ctx cats owners))

/-- `totalIncome`: zero whenever a specific card filter is active, else the
sum of the filtered income amounts. -/
def totalIncome (ctx : FilterCtx) (cats : List Category) (owners : List Owner)
    (txs : List Tx) : ℚ :=
  if ctx.selectedCardId.isSome then 0
  else
    ((filteredTransactions ctx cats owners txs).filter
      (fun t => t.txType == TxTypeU.INCOME)).foldl (fun acc t => acc + t.amount) 0

/-- `totalExpense`: the sum of the filtered expense amounts. -/
def totalExpense (ctx : FilterCtx) (cats : List Category) (owners : List Owner)
    (txs : List Tx) : ℚ :=
  ((filteredTransactions ctx cats owners txs).filter
    (fun t => t.txType == TxTypeU.EXPENSE)).foldl (fun acc t => acc + t.amount) 0

/-- `balance = computed(() => this.totalIncome() - this.totalExpense())`. -/
def balance (ctx : FilterCtx) (cats : List Category) (owners : List Owner)
    (txs : List Tx) : ℚ :=
  totalIncome ctx cats owners txs - totalExpense ctx cats owners txs

/-- Batch scope enumeration `'single' | 'all' | 'future' | 'past'`. -/
inductive BatchScope where
  | single
  | all
  | future
  | past
deriving Repr, DecidableEq

/-- Delete branch of `executeBatchAction` for a grouped transaction: locate
the target in the fetched group; when absent (`findIndex === -1`) resolve no
targets (early return); otherwise slice the ordered group by scope; finally
keep only truthy ids. -/
def resolveDeleteTargets (group : List Tx) (target : Tx)
    (scope : BatchScope) : List String :=
  let currentIndex := group.findIdx (fun t => t.id == target.id)
  if currentIndex = group.length then []
  else
    let targetIds : List String :=
      match scope with
      | .single => [target.id]
      | .all => group.map (fun t => t.id)
      | .future => (group.drop currentIndex).map (fun t => t.id)
      | .past => (group.take (currentIndex + 1)).map (fun t => t.id)
    targetIds.filter (fun s => s != "")

/-- `deleteTransactionsBulk`: the caller-side fan-out of one HTTP DELETE per
resolved id (no bulk endpoint). -/
def deleteBulkRequests (ids : List String) : List String :=
  ids.map (fun id => "DELETE /transactions/" ++ id)

/-- Pay branch of `executeBatchAction`: scope `single` targets just the
(truthy-id) target; any other scope ("pay entire invoice") targets every
loaded transaction whose `creditCardId` equals the target's card, returning
no targets when the target carries no card. -/
def resolvePayTargets (loaded : List Tx) (target : Tx)
    (scope : BatchScope) : List String :=
  if scope = .single then
    if target.id != "" then [target.id] else []
  else
    match target.creditCardId with
    | some currentCardId =>
      if currentCardId = "" then []
      else
        ((loaded.filter (fun t => t.creditCardId == some currentCardId)).map
          (fun t => t.id)).filter (fun s => s != "")
    | none => []

/-- Modelled from the spec's words, for comparison with the code: "scope
`all` there means every visible unpaid transaction billed to that card in
the current period" — the unpaid members of the currently filtered
(visible) view that are billed to the card. -/
def specPayInvoiceTargets (ctx : FilterCtx) (cats : List Category)
    (owners : List Owner) (loaded : List Tx) (cid : String) : List String :=
  ((filteredTransactions ctx cats owners loaded).filter
    (fun t => !t.paid && t.creditCardId == some cid)).map (fun t => t.id)

/-- A concrete transaction used as a base value for test inputs. -/
def sampleTx : Tx :=
  { id := "t1", description := "Compra", amount := 5, txType := .EXPENSE,
    purchaseDate := ⟨2025, 0, 15⟩, paid := false, categoryId := "",
    ownerId := "", creditCardId := none, groupId := none, categoryName := "",
    ownerName := "", installmentCurrent := 1, installmentTotal := 1,
    effectiveMonth := 0, effectiveYear := 2025 }

/-- A concrete filter context used as a base value for test inputs. -/
def sampleCtx : FilterCtx :=
  { selectedMonth := 0, selectedYear := 2025, selectedDay := none,
    selectedCardId := none, selectedOwnerId := none, statusFilter := .all,
    searchQuery := "", sortKey := "date", sortAsc := false }

theorem findIdx_eq_length_of_none {α : Type} (p : α → Bool) (l : List α)
    (h : ∀ a ∈ l, p a = false) : l.findIdx p = l.length :=
  List.findIdx_eq_length.mpr h

/-! ## Claim theorems: ledger aggregation and batch scope resolution -/

/-- **C2 (counterexample).** The claim "whenever a specific card filter is
active, both `totalIncome` and `balance` are reported as zero" fails on the
code: with the card filter `"c"` active and one loaded R$5 expense billed to
card `"c"`, `totalIncome` is 0 but `balance` is −5, not 0. -/
theorem card_filter_balance_not_zero :
    ({ sampleCtx with selectedCardId := some "c" } : FilterCtx).selectedCardId.isSome
        = true ∧
      balance { sampleCtx with selectedCardId := some "c" } [] []
        [{ sampleTx with id := "a", creditCardId := some "c" }] ≠ 0 := by
  constructor
  · rfl
  · norm_num [balance, totalIncome, totalExpense, filteredTransactions,
      txMatches, sortByCmp, insertSorted, sampleCtx, sampleTx, sortComparator,
      trimChars, lowerChars]

/-- **C2 (amended).** On every loaded transaction set and filter context the
reported totals satisfy `balance = totalIncome − totalExpense`; whenever a
specific card filter is active, `totalIncome` is reported as zero — and
hence `balance` equals `−totalExpense` (not necessarily zero). -/
theorem aggregation_totals (ctx : FilterCtx) (cats : List Category)
    (owners : List Owner) (txs : List Tx) :
    balance ctx cats owners txs =
        totalIncome ctx cats owners txs - totalExpense ctx cats owners txs ∧
      (ctx.selectedCardId.isSome = true →
        totalIncome ctx cats owners txs = 0 ∧
        balance ctx cats owners txs = -totalExpense ctx cats owners txs) := by
  refine ⟨rfl, fun h => ?_⟩
  have h1 : totalIncome ctx cats owners txs = 0 := by
    rw [totalIncome, if_pos h]
  refine ⟨h1, ?_⟩
  rw [balance, h1]
  ring

theorem aggregation_totals_witness :
    balance { sampleCtx with selectedCardId := some "c" } [] []
        [{ sampleTx with id := "a", creditCardId := some "c" }] =
      totalIncome { sampleCtx with selectedCardId := some "c" } [] []
          [{ sampleTx with id := "a", creditCardId := some "c" }] -
        totalExpense { sampleCtx with selectedCardId := some "c" } [] []
          [{ sampleTx with id := "a", creditCardId := some "c" }] ∧
      totalIncome { sampleCtx with selectedCardId := some "c" } [] []
        [{ sampleTx with id := "a", creditCardId := some "c" }] = 0 :=
  ⟨(aggregation_totals { sampleCtx with selectedCardId := some "c" } [] []
      [{ sampleTx with id := "a", creditCardId := some "c" }]).1,
    ((aggregation_totals { sampleCtx with selectedCardId := some "c" } [] []
      [{ sampleTx with id := "a", creditCardId := some "c" }]).2 rfl).1⟩

/-- **C4.** For a group in which the target is found at index `k` (of `N`
members with truthy ids), the delete-flow batch scope resolution returns:
for `single` exactly the target's identifier; for `all` every identifier in
the group; for `future` the identifiers at indices `k` through `N−1`
(inclusive of the target); for `past` the identifiers at indices `0`
through `k` (inclusive of the target). -/
theorem batch_scope_targets (group : List Tx) (target : Tx) (k : Nat)
    (hk : group.findIdx (fun t => t.id == target.id) = k)
    (hlt : k < group.length)
    (hids : ∀ t ∈ group, t.id ≠ "") :
    resolveDeleteTargets group target .single = [target.id] ∧
    resolveDeleteTargets group target .all = group.map (fun t => t.id) ∧
    resolveDeleteTargets group target .future =
      (group.drop k).map (fun t => t.id) ∧
    resolveDeleteTargets group target .past =
      (group.take (k + 1)).map (fun t => t.id) := by
  have hne : ¬ k = group.length := by omega
  have htid : target.id ≠ "" := by
    have hw : group.findIdx (fun t => t.id == target.id) < group.length := by
      omega
    have hp := List.findIdx_getElem (w := hw)
    have hmem : group[group.findIdx fun t => t.id == target.id] ∈ group :=
      List.getElem_mem _
    have heq : (group[group.findIdx fun t => t.id == target.id]).id =
        target.id := by
      simpa using hp
    rw [← heq]
    exact hids _ hmem
  refine ⟨?_, ?_, ?_, ?_⟩
  · simp only [resolveDeleteTargets, hk, if_neg hne]
    refine List.filter_eq_self.mpr ?_
    intro a ha
    rw [List.mem_singleton] at ha
    subst ha
    exact bne_iff_ne.mpr htid
  · simp only [resolveDeleteTargets, hk, if_neg hne]
    refine List.filter_eq_self.mpr ?_
    intro a ha
    obtain ⟨t, ht, rfl⟩ := List.mem_map.mp ha
    exact bne_iff_ne.mpr (hids t ht)
  · simp only [resolveDeleteTargets, hk, if_neg hne]
    refine List.filter_eq_self.mpr ?_
    intro a ha
    obtain ⟨t, ht, rfl⟩ := List.mem_map.mp ha
    exact bne_iff_ne.mpr (hids t (List.mem_of_mem_drop ht))
  · simp only [resolveDeleteTargets, hk, if_neg hne]
    refine List.filter_eq_self.mpr ?_
    intro a ha
    obtain ⟨t, ht, rfl⟩ := List.mem_map.mp ha
    exact bne_iff_ne.mpr (hids t (List.mem_of_mem_take ht))

/-- Witness for C4: the spec's worked example — a group of five
installments with the target at index 2 (third installment): `future`
resolves to installments 3–5, `past` to 1–3, `single` to the target,
`all` to the whole group. -/
theorem batch_scope_targets_witness :
    resolveDeleteTargets
        [{ sampleTx with id := "i1" }, { sampleTx with id := "i2" },
         { sampleTx with id := "i3" }, { sampleTx with id := "i4" },
         { sampleTx with id := "i5" }] { sampleTx with id := "i3" } .single =
      ["i3"] ∧
    resolveDeleteTargets
        [{ sampleTx with id := "i1" }, { sampleTx with id := "i2" },
         { sampleTx with id := "i3" }, { sampleTx with id := "i4" },
         { sampleTx with id := "i5" }] { sampleTx with id := "i3" } .all =
      ["i1", "i2", "i3", "i4", "i5"] ∧
    resolveDeleteTargets
        [{ sampleTx with id := "i1" }, { sampleTx with id := "i2" },
         { sampleTx with id := "i3" }, { sampleTx with id := "i4" },
         { sampleTx with id := "i5" }] { sampleTx with id := "i3" } .future =
      ["i3", "i4", "i5"] ∧
    resolveDeleteTargets
        [{ sampleTx with id := "i1" }, { sampleTx with id := "i2" },
         { sampleTx with id := "i3" }, { sampleTx with id := "i4" },
         { sampleTx with id := "i5" }] { sampleTx with id := "i3" } .past =
      ["i1", "i2", "i3"] := by
  obtain ⟨h1, h2, h3, h4⟩ := batch_scope_targets
    [{ sampleTx with id := "i1" }, { sampleTx with id := "i2" },
     { sampleTx with id := "i3" }, { sampleTx with id := "i4" },
     { sampleTx with id := "i5" }] { sampleTx with id := "i3" } 2
    (by decide) (by decide) (by decide)
  refine ⟨?_, ?_, ?_, ?_⟩
  · rw [h1]
  · rw [h2]; decide
  · rw [h3]; decide
  · rw [h4]; decide

/-- **C7 (counterexample).** The claim that "pay entire invoice" (scope
`all`) resolves to exactly the visible *unpaid* transactions billed to the
card fails on the code: with a single already-paid card-`"c"` transaction
loaded (and visible under the card filter), the code resolves its id while
the spec-side set of visible unpaid card transactions is empty. -/
theorem pay_invoice_targets_counterexample :
    resolvePayTargets
        [{ sampleTx with id := "a", paid := true, creditCardId := some "c" }]
        { sampleTx with id := "a", paid := true, creditCardId := some "c" }
        .all = ["a"] ∧
      specPayInvoiceTargets { sampleCtx with selectedCardId := some "c" } [] []
        [{ sampleTx with id := "a", paid := true, creditCardId := some "c" }]
        "c" = [] ∧
      (["a"] : List String) ≠ [] := by
  refine ⟨by decide, by decide, by decide⟩

/-- **C7 (amended).** When the payment toggle is invoked with scope `all`
on a card-billed transaction ("pay entire invoice"), the resolved target
set is exactly the identifiers of *all* loaded transactions billed to that
card in the current period — regardless of paid status and of any other
active view filters. -/
theorem pay_invoice_targets (loaded : List Tx) (target : Tx) (cid : String)
    (hcard : target.creditCardId = some cid) (hcid : cid ≠ "")
    (hids : ∀ t ∈ loaded, t.id ≠ "") :
    resolvePayTargets loaded target .all =
      (loaded.filter (fun t => t.creditCardId == some cid)).map
        (fun t => t.id) := by
  rw [resolvePayTargets]
  simp only [hcard, if_neg hcid, reduceCtorEq, if_false]
  refine List.filter_eq_self.mpr ?_
  intro a ha
  obtain ⟨t, ht, rfl⟩ := List.mem_map.mp ha
  exact bne_iff_ne.mpr (hids t (List.mem_of_mem_filter ht))

theorem pay_invoice_targets_witness :
    resolvePayTargets
        [{ sampleTx with id := "a", paid := true, creditCardId := some "c" },
         { sampleTx with id := "b", creditCardId := some "d" }]
        { sampleTx with id := "a", paid := true, creditCardId := some "c" }
        .all = ["a"] := by
  have h := pay_invoice_targets
    [{ sampleTx with id := "a", paid := true, creditCardId := some "c" },
     { sampleTx with id := "b", creditCardId := some "d" }]
    { sampleTx with id := "a", paid := true, creditCardId := some "c" } "c"
    rfl (by decide) (by decide)
  rw [h]
  decide

/-- **C8.** If the target transaction's identifier is not found in the
supplied group, the delete-flow batch scope resolution returns the empty
set — for every scope — rather than failing, and consequently the caller
fans out no delete requests (a no-op, not an error). -/
theorem missing_target_noop (group : List Tx) (target : Tx)
    (habs : ∀ t ∈ group, t.id ≠ target.id) :
    ∀ scope, resolveDeleteTargets group target scope = [] ∧
      deleteBulkRequests (resolveDeleteTargets group target scope) = [] := by
  intro scope
  have hidx : group.findIdx (fun t => t.id == target.id) = group.length := by
    refine findIdx_eq_length_of_none _ _ ?_
    intro t ht
    simpa using habs t ht
  have h : resolveDeleteTargets group target scope = [] := by
    simp only [resolveDeleteTargets, hidx, if_pos]
  exact ⟨h, by rw [h]; rfl⟩

theorem missing_target_noop_witness :
    resolveDeleteTargets [{ sampleTx with id := "b" }]
        { sampleTx with id := "a" } .future = [] ∧
      deleteBulkRequests (resolveDeleteTargets [{ sampleTx with id := "b" }]
        { sampleTx with id := "a" } .future) = [] :=
  missing_target_noop [{ sampleTx with id := "b" }]
    { sampleTx with id := "a" } (by decide) .future

/-! ## Metadata-carrying service revision (`src/services/finance.service.ts`) -/

/-- One backend payload of `addTransaction` in the metadata-carrying
revision of `src/services/finance.service.ts`: string category name,
installment counters, group id and effective billing period are sent with
each installment; the wire `purchaseDate` is the original `dateStr` for
every installment. -/
structure PayloadB where
  description : String
  amount : ℚ
  txType : TxKind
  purchaseYear : Nat
  purchaseMonth : Nat
  purchaseDay : Nat
  categoryName : String
  ownerId : String
  cardId : Option String
  groupId : Option String
  installmentCurrent : Nat
  installmentTotal : Nat
  effectiveMonth : Nat
  effectiveYear : Nat
deriving Repr, DecidableEq

/-- `addTransaction` of the metadata-carrying revision: category-name
resolution with `'Geral'` fallback, closing-day start-month shift, plain
division of the amount, one shared `groupId` when more than one
installment, per-installment counters, and effective period from
`new Date(startYear, startMonth + i, 1)`. -/
def addTransactionB (cards : List CreditCard) (cats : List Category)
    (description : String) (amount : ℚ) (txType : TxKind)
    (year month day : Nat) (categoryId ownerId : String)
    (cardId : Option String) (installments : Int)
    (freshGroupId : String) : List PayloadB :=
  let categoryName :=
    match cats.find? (fun c => c.id == categoryId) with
    | some c => jsOr c.name "Geral"
    | none => "Geral"
  let startMonth := startMonthOf cards txType cardId day month
  let n := totalInstallmentsOf txType cardId installments
  let amountPerInstallment := amount / (n : ℚ)
  let groupId : Option String := if 1 < n then some freshGroupId else none
  (List.range n).map (fun i =>
    let effectiveDate := jsDate year (startMonth + i) 1
    { description :=
        if 1 < n then
          description ++ " (" ++ toString (i + 1) ++ "/" ++ toString n ++ ")"
        else description
      amount := amountPerInstallment
      txType := txType
      purchaseYear := year
      purchaseMonth := month
      purchaseDay := day
      categoryName := categoryName
      ownerId := ownerId
      cardId := match txType with | .income => none | .expense => cardId
      groupId := groupId
      installmentCurrent := i + 1
      installmentTotal := n
      effectiveMonth := effectiveDate.month
      effectiveYear := effectiveDate.year })

/-- **C6.** For every positive installment count `N` (an expense with an
attached card), splitting produces exactly `N` payloads whose
`installmentCurrent` values are exactly `1..N`, all sharing the one freshly
generated `groupId` when `N > 1` (no `groupId` when `N = 1`), each with
`installmentTotal = N`, and — when `N > 1` — each description suffixed
with `(i+1/N)`. -/
theorem installment_split_fields (cards : List CreditCard)
    (cats : List Category) (description : String) (amount : ℚ)
    (year month day : Nat) (categoryId ownerId : String) (cid : String)
    (N : Nat) (g : String) (hcid : cid ≠ "") (hN : 0 < N) :
    (addTransactionB cards cats description amount .expense year month day
        categoryId ownerId (some cid) (N : Int) g).length = N ∧
    (addTransactionB cards cats description amount .expense year month day
        categoryId ownerId (some cid) (N : Int) g).map
      (fun p => p.installmentCurrent) = (List.range N).map (fun i => i + 1) ∧
    (∀ i p, (addTransactionB cards cats description amount .expense year
        month day categoryId ownerId (some cid) (N : Int) g)[i]? = some p →
      p.installmentTotal = N ∧
      p.groupId = (if 1 < N then some g else none) ∧
      p.description = (if 1 < N then
          description ++ " (" ++ toString (i + 1) ++ "/" ++ toString N ++ ")"
        else description)) := by
  have hn : totalInstallmentsOf .expense (some cid) (N : Int) = N := by
    simp only [totalInstallmentsOf, attachedCardId, if_neg hcid]
    rw [if_pos (by exact_mod_cast hN)]
    exact Int.toNat_natCast N
  refine ⟨?_, ?_, ?_⟩
  · rw [addTransactionB]
    simp [hn]
  · rw [addTransactionB]
    simp only [hn, List.map_map]
    rfl
  · intro i p hp
    rw [addTransactionB] at hp
    simp only [hn] at hp
    rw [List.getElem?_map] at hp
    have hi : i < N := by
      by_contra hi
      rw [List.getElem?_eq_none (by simp; omega)] at hp
      simp at hp
    rw [List.getElem?_range hi, Option.map_some'] at hp
    replace hp := Option.some_inj.mp hp
    subst hp
    exact ⟨rfl, rfl, rfl⟩

theorem installment_split_fields_witness :
    (addTransactionB [] [] "Compra" 300 .expense 2025 0 15 "cat" "own"
        (some "c1") ((3 : Nat) : Int) "g").length = 3 ∧
    (addTransactionB [] [] "Compra" 300 .expense 2025 0 15 "cat" "own"
        (some "c1") ((3 : Nat) : Int) "g").map
      (fun p => p.installmentCurrent) = [1, 2, 3] := by
  obtain ⟨h1, h2, h3⟩ := installment_split_fields [] [] "Compra" 300 2025 0
    15 "cat" "own" "c1" 3 "g" (by decide) (by norm_num)
  refine ⟨h1, ?_⟩
  rw [h2]
  decide

/-! ## Latest service revision (`src/app/services/finance.service.ts`) -/

/-- Backend payload of the latest `addTransaction`: flat reference ids,
payment method and paid flag; `type` is the uppercase enumeration. -/
structure PayloadN where
  description : String
  amount : ℚ
  txType : TxTypeU
  date : YMD
  categoryId : String
  ownerId : String
  creditCardId : Option String
  paymentMethod : String
  groupId : Option String
  paid : Bool
deriving Repr, DecidableEq

/-- The wire `creditCardId` of the latest `addTransaction`:
`(type.toUpperCase() === 'EXPENSE' && cardId) ? cardId : null`. -/
def sentCardId (txType : TxTypeU) (cardId : Option String) : Option String :=
  match txType, cardId with
  | .EXPENSE, some cid => if cid = "" then none else some cid
  | _, _ => none

/-- The latest `addTransaction`: the installment count applies to every
`EXPENSE` (card attached or not) and never to `INCOME`; `creditCardId` is
sent only for expenses with a truthy card id; installment dates use the
day clamp with no closing-day shift. -/
def addTransactionN (description : String) (amount : ℚ) (txType : TxTypeU)
    (year month day : Nat) (categoryId ownerId : String)
    (cardId : Option String) (installments : Int) (paymentMethod : String)
    (paid : Bool) (freshGroupId : String) : List PayloadN :=
  let n : Nat :=
    match txType with
    | .EXPENSE => if 0 < installments then installments.toNat else 1
    | .INCOME => 1
  let amountPerInstallment := amount / (n : ℚ)
  let groupId : Option String := if 1 < n then some freshGroupId else none
  (List.range n).map (fun i =>
    { description :=
        if 1 < n then
          description ++ " (" ++ toString (i + 1) ++ "/" ++ toString n ++ ")"
        else description
      amount := amountPerInstallment
      txType := txType
      date := installmentDate year month day i
      categoryId := categoryId
      ownerId := ownerId
      creditCardId := sentCardId txType cardId
      paymentMethod := paymentMethod
      groupId := groupId
      paid := paid })

/-- **C10.** Creating an income transaction produces exactly one record,
with a null card reference and no group identifier, for every value of the
`installments` argument; a positive requested installment count takes
effect only for expenses — in the latest revision for every expense, and in
the earlier (closing-day) revision only for expenses with an attached
(truthy) card: there a cardless expense still yields exactly one record. -/
theorem income_single_record (description : String) (amount : ℚ)
    (year month day : Nat) (categoryId ownerId : String)
    (cardId : Option String) (installments : Int)
    (paymentMethod : String) (paid : Bool) (g : String)
    (cards : List CreditCard) :
    (addTransactionN description amount .INCOME year month day categoryId
        ownerId cardId installments paymentMethod paid g).length = 1 ∧
    (∀ p ∈ addTransactionN description amount .INCOME year month day
        categoryId ownerId cardId installments paymentMethod paid g,
      p.creditCardId = none ∧ p.groupId = none) ∧
    (0 < installments →
      (addTransactionN description amount .EXPENSE year month day categoryId
          ownerId cardId installments paymentMethod paid g).length =
        installments.toNat) ∧
    (addTransactionA cards description amount .income year month day
        categoryId ownerId cardId installments g).length = 1 ∧
    (∀ p ∈ addTransactionA cards description amount .income year month day
        categoryId ownerId cardId installments g,
      p.cardRef = none ∧ p.groupId = none) ∧
    (0 < installments → ∀ cid, cid ≠ "" →
      (addTransactionA cards description amount .expense year month day
          categoryId ownerId (some cid) installments g).length =
        installments.toNat) ∧
    (addTransactionA cards description amount .expense year month day
        categoryId ownerId none installments g).length = 1 := by
  refine ⟨?_, ?_, ?_, ?_, ?_, ?_, ?_⟩
  · rw [addTransactionN, List.length_map, List.length_range]
  · intro p hp
    rw [addTransactionN] at hp
    simp only [List.mem_map, List.mem_range] at hp
    obtain ⟨i, _, rfl⟩ := hp
    exact ⟨rfl, rfl⟩
  · intro hpos
    rw [addTransactionN, List.length_map, List.length_range]
    show (if 0 < installments then installments.toNat else 1) = installments.toNat
    rw [if_pos hpos]
  · rw [addTransactionA, List.length_map, List.length_range]
    have h1 : attachedCardId .income cardId = none := rfl
    rw [totalInstallmentsOf, h1]
  · intro p hp
    rw [addTransactionA] at hp
    simp only [List.mem_map, List.mem_range] at hp
    obtain ⟨i, _, rfl⟩ := hp
    have h1 : attachedCardId .income cardId = none := rfl
    have h2 : totalInstallmentsOf .income cardId installments = 1 := by
      rw [totalInstallmentsOf, h1]
    refine ⟨h1, ?_⟩
    simp [h2]
  · intro hpos cid hcid
    rw [addTransactionA, List.length_map, List.length_range]
    have h1 : attachedCardId .expense (some cid) = some cid := by
      rw [attachedCardId, if_neg hcid]
    rw [totalInstallmentsOf, h1]
    show (if 0 < installments then installments.toNat else 1) = installments.toNat
    rw [if_pos hpos]
  · rw [addTransactionA, List.length_map, List.length_range]
    have h1 : attachedCardId .expense none = none := rfl
    rw [totalInstallmentsOf, h1]

theorem income_single_record_witness :
    (addTransactionN "Compra" 300 .INCOME 2025 0 15 "cat" "own"
        (some "c1") 6 "PIX" true "g").length = 1 ∧
    (addTransactionN "Compra" 300 .EXPENSE 2025 0 15 "cat" "own"
        (some "c1") 6 "PIX" true "g").length = 6 ∧
    (addTransactionA [] "Compra" 300 .expense 2025 0 15 "cat" "own"
        (some "c1") 6 "g").length = 6 ∧
    (addTransactionA [] "Compra" 300 .expense 2025 0 15 "cat" "own"
        none 6 "g").length = 1 := by
  have h := income_single_record "Compra" 300 2025 0 15 "cat" "own"
    (some "c1") 6 "PIX" true "g" []
  refine ⟨h.1, ?_, ?_, h.2.2.2.2.2.2⟩
  · rw [h.2.2.1 (by norm_num)]
    rfl
  · rw [h.2.2.2.2.2.1 (by norm_num) "c1" (by decide)]
    rfl

end ControlFinance
